import Mathlib

/-!
# GMM model selection: BIC-based grid search

A verification development for a notebook that selects a Gaussian Mixture
Model over a grid of (component count, covariance family) configurations by
minimizing the Bayesian Information Criterion (BIC).

The notebook's own code contributes three concrete artifacts, embedded
directly below:
* `gmm_bic_score`, the scoring callable returning the negated BIC;
* `param_grid`, the enumerated grid (`n_components` from `range(1, 7)` and
  the four covariance families in declared order);
* the reporting step that re-negates the stored `mean_test_score` into the
  displayed "BIC score" column.

The grid-search invocation itself is left incomplete in the notebook (a
student exercise), so the selection core (`select`) is modelled from the
specification: deterministic enumeration, per-point failure tolerance,
minimum-score selection with parameter-count then enumeration-order
tie-breaks, `NoViableModel` when everything fails, and fail-fast input
validation. Scores are modelled as rationals; the logarithm appearing in
BIC is an explicit function argument, since the criterion evaluator is an
external collaborator.
-/

deriving instance DecidableEq for Except

namespace GMMSelect

/-- A dataset: an ordered collection of points in a fixed-dimensional
rational vector space. -/
abbrev Dataset := List (List ℚ)

/-- Dimensionality of a dataset: the length of its first point. -/
def dim (X : Dataset) : ℕ := (X.headD []).length

/-- The four covariance families of the notebook's `param_grid`:
`"spherical"`, `"tied"`, `"diag"`, `"full"`. -/
inductive CovarianceFamily where
  | spherical
  | tied
  | diag
  | full
deriving DecidableEq, Repr

/-- The declared order of the `covariance_type` list in `param_grid`:
`["spherical", "tied", "diag", "full"]`. -/
def declaredFamilies : List CovarianceFamily :=
  [.spherical, .tied, .diag, .full]

/-- The `n_components` values of `param_grid`: `range(1, 7)`. -/
def kValuesSrc : List ℕ := [1, 2, 3, 4, 5, 6]

/-- Number of free covariance parameters for `k` components in dimension
`d`: one full matrix per component, one shared matrix, one diagonal per
component, or one scalar per component. -/
def covParams (k d : ℕ) : CovarianceFamily → ℕ
  | .full => k * (d * (d + 1) / 2)
  | .tied => d * (d + 1) / 2
  | .diag => k * d
  | .spherical => k

/-- Modelled from the spec: the number of free parameters `p` implied by
(k, family, dimensionality) — covariance parameters plus `k*d` mean
coordinates plus `k - 1` free mixing weights.  (The concrete parameter
count lives in the external mixture library, not in the notebook.) -/
def nParameters (k d : ℕ) (fam : CovarianceFamily) : ℕ :=
  covParams k d fam + k * d + (k - 1)

/-- A fitted mixture model: per-component mixing weights, means,
covariance parameters (shape depends on the family, hence flattened
lists), and the maximized log-likelihood achieved by
expectation-maximization. -/
structure FittedModel where
  weights : List ℚ
  means : List (List ℚ)
  covarianceValues : List (List ℚ)
  logLik : ℚ
deriving DecidableEq, Repr

/-- One row of the result table: the configuration, and either the fitted
model with its score, or `none` as the failure marker for a `FitFailure`
(score undefined). -/
structure ResultRow where
  k : ℕ
  family : CovarianceFamily
  outcome : Option (FittedModel × ℚ)
deriving DecidableEq, Repr

/-- Modelled from the spec: the `SelectionResult` value — the best
configuration, its fitted model and score, and the full result table in
enumeration order. -/
structure SelectionResult where
  bestK : ℕ
  bestFamily : CovarianceFamily
  bestModel : FittedModel
  bestScore : ℚ
  table : List ResultRow
deriving DecidableEq, Repr

/-- Modelled from the spec: the errors `select` can surface to its caller.
`FitFailure` is deliberately absent — it is recovered per grid point and
never propagated. -/
inductive SelectError where
  | InvalidConfiguration
  | NoViableModel
deriving DecidableEq, Repr

/-- The best candidate tracked during the minimum-score reduction. -/
structure Best where
  k : ℕ
  family : CovarianceFamily
  model : FittedModel
  score : ℚ
deriving DecidableEq, Repr

/-- Modelled from the spec: the deterministic grid enumeration — the
Cartesian product of `kValues` and `families`, iterating k ascending (in
the order of `kValues`) with the families in their fixed declared order. -/
def grid (kValues : List ℕ) (families : List CovarianceFamily) :
    List (ℕ × CovarianceFamily) :=
  kValues.flatMap fun k => families.map fun f => (k, f)

/-- Modelled from the spec: fitting one grid point and recording its row —
a `FitFailure` (`none` from the fitter) becomes a failure marker with
undefined score; a success is scored by the criterion. -/
def sweepRow (X : Dataset)
    (fit : Dataset → ℕ → CovarianceFamily → Option FittedModel)
    (criterion : FittedModel → Dataset → ℚ)
    (p : ℕ × CovarianceFamily) : ResultRow :=
  match fit X p.1 p.2 with
  | none => ⟨p.1, p.2, none⟩
  | some m => ⟨p.1, p.2, some (m, criterion m X)⟩

/-- Modelled from the spec: the full sweep — each grid point is attempted
exactly once, in enumeration order, failures recorded and skipped. -/
def sweep (X : Dataset)
    (fit : Dataset → ℕ → CovarianceFamily → Option FittedModel)
    (criterion : FittedModel → Dataset → ℚ)
    (g : List (ℕ × CovarianceFamily)) : List ResultRow :=
  g.map (sweepRow X fit criterion)

/-- Modelled from the spec: the minimum-score reduction over the result
table.  A later candidate replaces the current one only when it strictly
beats it (strictly smaller score, or equal score and strictly fewer free
parameters), so the earliest enumeration position wins remaining ties. -/
def consBest (d : ℕ) (r : ResultRow) (acc : Option Best) : Option Best :=
  match r.outcome with
  | none => acc
  | some (m, s) =>
    match acc with
    | none => some ⟨r.k, r.family, m, s⟩
    | some b =>
      if b.score < s ∨
          (b.score = s ∧
            nParameters b.k d b.family < nParameters r.k d r.family) then
        some b
      else
        some ⟨r.k, r.family, m, s⟩

/-- The reduction over the whole table, right to left, so that the head of
the list is compared last and wins all remaining ties. -/
def pickBest (d : ℕ) (l : List ResultRow) : Option Best :=
  l.foldr (consBest d) none

/-- Modelled from the spec: grid validity — `k_values` and `families`
non-empty and every k a positive integer. -/
def validGrid (kValues : List ℕ) (families : List CovarianceFamily) : Bool :=
  !kValues.isEmpty && !families.isEmpty && kValues.all fun k => decide (0 < k)

/-- Modelled from the spec: the Model Selector core.
`select(dataset, k_values, families, criterion)` with the Mixture Fitter
passed as the pluggable `fit` capability.  Validates the grid first,
sweeps every grid point once, and returns the minimum-score success with
the tie-break rule, the failure cases becoming `InvalidConfiguration` and
`NoViableModel`. -/
def select (X : Dataset) (kValues : List ℕ) (families : List CovarianceFamily)
    (fit : Dataset → ℕ → CovarianceFamily → Option FittedModel)
    (criterion : FittedModel → Dataset → ℚ) :
    Except SelectError SelectionResult :=
  if validGrid kValues families then
    match pickBest (dim X) (sweep X fit criterion (grid kValues families)) with
    | none => .error .NoViableModel
    | some b =>
      .ok ⟨b.k, b.family, b.model, b.score,
        sweep X fit criterion (grid kValues families)⟩
  else
    .error .InvalidConfiguration

/-- A fitted estimator as the notebook's scoring callable sees it: its
configuration and its maximized log-likelihood on the data. -/
structure Estimator where
  k : ℕ
  family : CovarianceFamily
  logLik : ℚ
deriving DecidableEq, Repr

/-- Modelled from the spec: the external Criterion Evaluator's
`estimator.bic(X)` — `-2 * log_likelihood(model, data) + p * log(n)` with
`p = nParameters` and `n` the number of data points; the logarithm is an
explicit argument since the evaluator is an external collaborator. -/
def Estimator.bic (e : Estimator) (X : Dataset) (log : ℕ → ℚ) : ℚ :=
  -2 * e.logLik + (nParameters e.k (dim X) e.family : ℚ) * log X.length

/-- The notebook's scoring callable: `return -estimator.bic(X)` — negated
because the grid-search utility maximizes a score. -/
def gmm_bic_score (estimator : Estimator) (X : Dataset) (log : ℕ → ℚ) : ℚ :=
  -(estimator.bic X log)

/-- First-occurrence argmax over a list (the maximizing convention of the
grid-search utility): a later element replaces the current best only when
its value is strictly greater. -/
def argmaxBy {α : Type} (f : α → ℚ) : List α → Option α
  | [] => none
  | a :: rest =>
    match argmaxBy f rest with
    | none => some a
    | some b => if f a < f b then some b else some a

/-- Modelled from the spec: first-occurrence argmin — the direct
minimization contract the design replaces the maximize-the-negative
implementation with. -/
def argminBy {α : Type} (f : α → ℚ) : List α → Option α
  | [] => none
  | a :: rest =>
    match argminBy f rest with
    | none => some a
    | some b => if f b < f a then some b else some a

/-- The notebook's `cv_results_` restricted to the three reported columns:
component count, covariance type, and the stored `mean_test_score`, which
is the value of `gmm_bic_score`. -/
def cv_results (es : List Estimator) (X : Dataset) (log : ℕ → ℚ) :
    List (ℕ × CovarianceFamily × ℚ) :=
  es.map fun e => (e.k, e.family, gmm_bic_score e X log)

/-- The notebook's reporting step: `df["mean_test_score"] =
-df["mean_test_score"]` — the displayed "BIC score" column negates the
stored score. -/
def df_bic (es : List Estimator) (X : Dataset) (log : ℕ → ℚ) :
    List (ℕ × CovarianceFamily × ℚ) :=
  (cv_results es X log).map fun row => (row.1, row.2.1, -row.2.2)

/-! ## Concrete instantiation data

Small deterministic stand-ins for the external collaborators, used to
evaluate the theorems below on closed inputs. -/

/-- A tiny concrete dataset: four points in the plane. -/
def wX : Dataset := [[0, 0], [1, 1], [2, 0], [3, 1]]

/-- A stub fitted model with log-likelihood `v`. -/
def wModel (v : ℚ) : FittedModel := ⟨[1], [[0, 0]], [[1, 0], [0, 1]], v⟩

/-- A deterministic stub fitter that always succeeds; its log-likelihood
improves with the component count. -/
def wFitAll (X : Dataset) (k : ℕ) (fam : CovarianceFamily) :
    Option FittedModel :=
  some (wModel (if k = 1 then -2 else -4))

/-- A deterministic stub fitter that fails exactly at k = 1. -/
def wFitPartial (X : Dataset) (k : ℕ) (fam : CovarianceFamily) :
    Option FittedModel :=
  if k = 1 then none else some (wModel (-4))

/-- A stub fitter that always fails. -/
def wFitFail (X : Dataset) (k : ℕ) (fam : CovarianceFamily) :
    Option FittedModel :=
  none

/-- A stub criterion: the model's own log-likelihood field, unchanged. -/
def wCrit (m : FittedModel) (X : Dataset) : ℚ := m.logLik

/-- The value of `select wX [1, 2] [spherical] wFitAll wCrit`. -/
def wResult : SelectionResult :=
  ⟨2, .spherical, wModel (-4), -4,
    [⟨1, .spherical, some (wModel (-2), -2)⟩,
     ⟨2, .spherical, some (wModel (-4), -4)⟩]⟩

/-- The value of `select wX [1] [spherical, full] wFitAll wCrit`: both
rows tie at score -2 and the spherical family has fewer parameters. -/
def wTieResult : SelectionResult :=
  ⟨1, .spherical, wModel (-2), -2,
    [⟨1, .spherical, some (wModel (-2), -2)⟩,
     ⟨1, .full, some (wModel (-2), -2)⟩]⟩

/-- The value of `select wX [1, 2] [full] wFitPartial wCrit`: the k = 1
fit fails and is recorded with the failure marker. -/
def wPartialResult : SelectionResult :=
  ⟨2, .full, wModel (-4), -4,
    [⟨1, .full, none⟩, ⟨2, .full, some (wModel (-4), -4)⟩]⟩

/-! ## Helper lemmas -/

theorem sweepRow_k (X : Dataset) (fit : Dataset → ℕ → CovarianceFamily → Option FittedModel)
    (criterion : FittedModel → Dataset → ℚ) (p : ℕ × CovarianceFamily) :
    (sweepRow X fit criterion p).k = p.1 := by
  unfold sweepRow
  cases fit X p.1 p.2 <;> rfl

theorem sweepRow_family (X : Dataset) (fit : Dataset → ℕ → CovarianceFamily → Option FittedModel)
    (criterion : FittedModel → Dataset → ℚ) (p : ℕ × CovarianceFamily) :
    (sweepRow X fit criterion p).family = p.2 := by
  unfold sweepRow
  cases fit X p.1 p.2 <;> rfl

theorem sweepRow_of_fail (X : Dataset) (fit : Dataset → ℕ → CovarianceFamily → Option FittedModel)
    (criterion : FittedModel → Dataset → ℚ) (p : ℕ × CovarianceFamily)
    (h : fit X p.1 p.2 = none) :
    sweepRow X fit criterion p = ⟨p.1, p.2, none⟩ := by
  unfold sweepRow
  rw [h]

theorem sweepRow_of_fit (X : Dataset) (fit : Dataset → ℕ → CovarianceFamily → Option FittedModel)
    (criterion : FittedModel → Dataset → ℚ) (p : ℕ × CovarianceFamily)
    (m : FittedModel) (h : fit X p.1 p.2 = some m) :
    sweepRow X fit criterion p = ⟨p.1, p.2, some (m, criterion m X)⟩ := by
  unfold sweepRow
  rw [h]

theorem sweepRow_outcome_eq_none (X : Dataset)
    (fit : Dataset → ℕ → CovarianceFamily → Option FittedModel)
    (criterion : FittedModel → Dataset → ℚ) (p : ℕ × CovarianceFamily) :
    (sweepRow X fit criterion p).outcome = none ↔ fit X p.1 p.2 = none := by
  unfold sweepRow
  cases h : fit X p.1 p.2 <;> simp

theorem sweepRow_outcome_some (X : Dataset)
    (fit : Dataset → ℕ → CovarianceFamily → Option FittedModel)
    (criterion : FittedModel → Dataset → ℚ) (p : ℕ × CovarianceFamily)
    (m : FittedModel) (s : ℚ)
    (h : (sweepRow X fit criterion p).outcome = some (m, s)) :
    fit X p.1 p.2 = some m ∧ s = criterion m X := by
  unfold sweepRow at h
  cases hf : fit X p.1 p.2 with
  | none => rw [hf] at h; simp at h
  | some m0 =>
    rw [hf] at h
    simp only [Option.some.injEq, Prod.mk.injEq] at h
    obtain ⟨h1, h2⟩ := h
    subst h1
    exact ⟨rfl, h2.symm⟩

theorem mem_sweep (X : Dataset) (fit : Dataset → ℕ → CovarianceFamily → Option FittedModel)
    (criterion : FittedModel → Dataset → ℚ) (g : List (ℕ × CovarianceFamily))
    (r : ResultRow) :
    r ∈ sweep X fit criterion g ↔ ∃ p ∈ g, sweepRow X fit criterion p = r := by
  unfold sweep
  exact List.mem_map

theorem pickBest_nil (d : ℕ) : pickBest d [] = none := rfl

theorem pickBest_cons (d : ℕ) (r : ResultRow) (rest : List ResultRow) :
    pickBest d (r :: rest) = consBest d r (pickBest d rest) := rfl

theorem consBest_fail (d : ℕ) (r : ResultRow) (acc : Option Best)
    (h : r.outcome = none) : consBest d r acc = acc := by
  unfold consBest
  rw [h]

theorem consBest_fit_none (d : ℕ) (r : ResultRow) (m : FittedModel) (s : ℚ)
    (h : r.outcome = some (m, s)) :
    consBest d r none = some ⟨r.k, r.family, m, s⟩ := by
  unfold consBest
  rw [h]

theorem consBest_fit_some (d : ℕ) (r : ResultRow) (m : FittedModel) (s : ℚ)
    (b : Best) (h : r.outcome = some (m, s)) :
    consBest d r (some b) =
      if b.score < s ∨
          (b.score = s ∧
            nParameters b.k d b.family < nParameters r.k d r.family) then
        some b
      else
        some ⟨r.k, r.family, m, s⟩ := by
  unfold consBest
  rw [h]

theorem ResultRow_eta (r : ResultRow) (m : FittedModel) (s : ℚ)
    (h : r.outcome = some (m, s)) :
    (⟨r.k, r.family, some (m, s)⟩ : ResultRow) = r := by
  rw [show r = ⟨r.k, r.family, r.outcome⟩ from rfl, h]

theorem pickBest_eq_none_iff (d : ℕ) (l : List ResultRow) :
    pickBest d l = none ↔ ∀ r ∈ l, r.outcome = none := by
  induction l with
  | nil => simp [pickBest_nil]
  | cons r rest ih =>
    cases hr : r.outcome with
    | none =>
      rw [pickBest_cons, consBest_fail d r _ hr, ih]
      constructor
      · intro h x hx
        rcases List.mem_cons.mp hx with h1 | h2
        · rw [h1]; exact hr
        · exact h x h2
      · intro h x hx
        exact h x (List.mem_cons_of_mem r hx)
    | some ms =>
      obtain ⟨m, s⟩ := ms
      cases hb : pickBest d rest with
      | none =>
        rw [pickBest_cons, hb, consBest_fit_none d r m s hr]
        constructor
        · intro h; exact Option.noConfusion h
        · intro h
          exact absurd hr (by rw [h r (List.mem_cons_self r rest)]; simp)
      | some b =>
        rw [pickBest_cons, hb, consBest_fit_some d r m s b hr]
        constructor
        · intro h
          split at h <;> exact Option.noConfusion h
        · intro h
          exact absurd hr (by rw [h r (List.mem_cons_self r rest)]; simp)

theorem pickBest_mem (d : ℕ) (l : List ResultRow) :
    ∀ b : Best, pickBest d l = some b →
      (⟨b.k, b.family, some (b.model, b.score)⟩ : ResultRow) ∈ l := by
  induction l with
  | nil => intro b h; simp [pickBest_nil] at h
  | cons r rest ih =>
    intro b h
    cases hr : r.outcome with
    | none =>
      rw [pickBest_cons, consBest_fail d r _ hr] at h
      exact List.mem_cons_of_mem r (ih b h)
    | some ms =>
      obtain ⟨m, s⟩ := ms
      cases hb : pickBest d rest with
      | none =>
        rw [pickBest_cons, hb, consBest_fit_none d r m s hr] at h
        injection h with h
        rw [← h, ResultRow_eta r m s hr]
        exact List.mem_cons_self r rest
      | some b0 =>
        rw [pickBest_cons, hb, consBest_fit_some d r m s b0 hr] at h
        split at h
        · injection h with h
          rw [← h]
          exact List.mem_cons_of_mem r (ih b0 hb)
        · injection h with h
          rw [← h, ResultRow_eta r m s hr]
          exact List.mem_cons_self r rest

theorem pickBest_min (d : ℕ) (l : List ResultRow) :
    ∀ b : Best, pickBest d l = some b →
      ∀ r ∈ l, ∀ m s, r.outcome = some (m, s) →
        b.score ≤ s ∧
          (b.score = s →
            nParameters b.k d b.family ≤ nParameters r.k d r.family) := by
  induction l with
  | nil => intro b h; simp [pickBest_nil] at h
  | cons r rest ih =>
    intro b h x hx m' s' hout
    cases hr : r.outcome with
    | none =>
      rw [pickBest_cons, consBest_fail d r _ hr] at h
      rcases List.mem_cons.mp hx with h1 | h2
      · rw [h1, hr] at hout; exact Option.noConfusion hout
      · exact ih b h x h2 m' s' hout
    | some ms =>
      obtain ⟨m, s⟩ := ms
      cases hb : pickBest d rest with
      | none =>
        rw [pickBest_cons, hb, consBest_fit_none d r m s hr] at h
        injection h with h
        subst h
        rcases List.mem_cons.mp hx with h1 | h2
        · subst h1
          rw [hr] at hout
          simp only [Option.some.injEq, Prod.mk.injEq] at hout
          obtain ⟨hm, hs⟩ := hout
          subst hm
          subst hs
          exact ⟨le_refl _, fun _ => le_refl _⟩
        · exact absurd ((pickBest_eq_none_iff d rest).mp hb x h2)
            (by rw [hout]; simp)
      | some b0 =>
        rw [pickBest_cons, hb, consBest_fit_some d r m s b0 hr] at h
        rcases List.mem_cons.mp hx with h1 | h2
        · subst h1
          rw [hr] at hout
          simp only [Option.some.injEq, Prod.mk.injEq] at hout
          obtain ⟨hm, hs⟩ := hout
          subst hm
          subst hs
          split at h
          · rename_i hcond
            injection h with h
            subst h
            rcases hcond with hlt | ⟨heq, hplt⟩
            · exact ⟨le_of_lt hlt, fun habs => absurd habs (ne_of_lt hlt)⟩
            · exact ⟨le_of_eq heq, fun _ => le_of_lt hplt⟩
          · injection h with h
            subst h
            exact ⟨le_refl _, fun _ => le_refl _⟩
        · have hrec := ih b0 hb x h2 m' s' hout
          split at h
          · injection h with h
            subst h
            exact hrec
          · rename_i hcond
            push_neg at hcond
            injection h with h
            subst h
            constructor
            · exact le_trans hcond.1 hrec.1
            · intro hbs
              have hb0s : b0.score = s' := le_antisymm hrec.1 (hbs ▸ hcond.1)
              exact le_trans (hcond.2 (hb0s.trans hbs.symm)) (hrec.2 hb0s)

theorem pickBest_earliest (d : ℕ) (l : List ResultRow) :
    ∀ b : Best, pickBest d l = some b →
      ∃ i : ℕ, l[i]? = some ⟨b.k, b.family, some (b.model, b.score)⟩ ∧
        ∀ j, j < i → ∀ r : ResultRow, l[j]? = some r →
          ∀ m s, r.outcome = some (m, s) →
            b.score < s ∨
              (b.score = s ∧
                nParameters b.k d b.family < nParameters r.k d r.family) := by
  induction l with
  | nil => intro b h; simp [pickBest_nil] at h
  | cons r rest ih =>
    intro b h
    cases hr : r.outcome with
    | none =>
      rw [pickBest_cons, consBest_fail d r _ hr] at h
      obtain ⟨i, hi, hbefore⟩ := ih b h
      refine ⟨i + 1, by simpa using hi, ?_⟩
      intro j hj x hx m s hout
      cases j with
      | zero =>
        simp at hx
        rw [← hx, hr] at hout
        exact Option.noConfusion hout
      | succ j0 =>
        simp only [List.getElem?_cons_succ] at hx
        exact hbefore j0 (Nat.lt_of_succ_lt_succ hj) x hx m s hout
    | some ms =>
      obtain ⟨m, s⟩ := ms
      cases hb : pickBest d rest with
      | none =>
        rw [pickBest_cons, hb, consBest_fit_none d r m s hr] at h
        injection h with h
        subst h
        refine ⟨0, ?_, ?_⟩
        · simp only [List.getElem?_cons_zero, Option.some.injEq]
          exact (ResultRow_eta r m s hr).symm
        · intro j hj
          exact absurd hj (Nat.not_lt_zero j)
      | some b0 =>
        rw [pickBest_cons, hb, consBest_fit_some d r m s b0 hr] at h
        split at h
        · rename_i hcond
          injection h with h
          subst h
          obtain ⟨i, hi, hbefore⟩ := ih b0 hb
          refine ⟨i + 1, by simpa using hi, ?_⟩
          intro j hj x hx m' s' hout
          cases j with
          | zero =>
            simp at hx
            rw [← hx, hr] at hout
            simp only [Option.some.injEq, Prod.mk.injEq] at hout
            obtain ⟨hm, hs⟩ := hout
            subst hm
            subst hs
            rcases hcond with hlt | ⟨heq, hplt⟩
            · left; exact hlt
            · right
              rw [← hx]
              exact ⟨heq, hplt⟩
          | succ j0 =>
            simp only [List.getElem?_cons_succ] at hx
            exact hbefore j0 (Nat.lt_of_succ_lt_succ hj) x hx m' s' hout
        · injection h with h
          subst h
          refine ⟨0, ?_, ?_⟩
          · simp only [List.getElem?_cons_zero, Option.some.injEq]
            exact (ResultRow_eta r m s hr).symm
          · intro j hj
            exact absurd hj (Nat.not_lt_zero j)

theorem select_invalid (X : Dataset) (kV : List ℕ) (fams : List CovarianceFamily)
    (fit : Dataset → ℕ → CovarianceFamily → Option FittedModel)
    (criterion : FittedModel → Dataset → ℚ)
    (h : validGrid kV fams = false) :
    select X kV fams fit criterion = .error .InvalidConfiguration := by
  unfold select
  rw [h]
  simp

theorem select_ok_intro (X : Dataset) (kV : List ℕ) (fams : List CovarianceFamily)
    (fit : Dataset → ℕ → CovarianceFamily → Option FittedModel)
    (criterion : FittedModel → Dataset → ℚ) (b : Best)
    (hv : validGrid kV fams = true)
    (hp : pickBest (dim X) (sweep X fit criterion (grid kV fams)) = some b) :
    select X kV fams fit criterion =
      .ok ⟨b.k, b.family, b.model, b.score,
        sweep X fit criterion (grid kV fams)⟩ := by
  unfold select
  rw [hv, hp]
  simp

theorem select_noviable_intro (X : Dataset) (kV : List ℕ)
    (fams : List CovarianceFamily)
    (fit : Dataset → ℕ → CovarianceFamily → Option FittedModel)
    (criterion : FittedModel → Dataset → ℚ)
    (hv : validGrid kV fams = true)
    (hp : pickBest (dim X) (sweep X fit criterion (grid kV fams)) = none) :
    select X kV fams fit criterion = .error .NoViableModel := by
  unfold select
  rw [hv, hp]
  simp

theorem select_ok_elim (X : Dataset) (kV : List ℕ) (fams : List CovarianceFamily)
    (fit : Dataset → ℕ → CovarianceFamily → Option FittedModel)
    (criterion : FittedModel → Dataset → ℚ) (r : SelectionResult)
    (h : select X kV fams fit criterion = .ok r) :
    validGrid kV fams = true ∧
    r.table = sweep X fit criterion (grid kV fams) ∧
    pickBest (dim X) r.table =
      some ⟨r.bestK, r.bestFamily, r.bestModel, r.bestScore⟩ := by
  unfold select at h
  by_cases hv : validGrid kV fams = true
  · rw [hv] at h
    cases hp : pickBest (dim X) (sweep X fit criterion (grid kV fams)) with
    | none =>
      rw [hp] at h
      simp at h
    | some b =>
      rw [hp] at h
      simp only [] at h
      injection h with h
      subst h
      exact ⟨hv, rfl, hp⟩
  · rw [Bool.not_eq_true] at hv
    rw [hv] at h
    simp at h

theorem mem_grid (kV : List ℕ) (fams : List CovarianceFamily) (k : ℕ)
    (f : CovarianceFamily) :
    (k, f) ∈ grid kV fams ↔ k ∈ kV ∧ f ∈ fams := by
  unfold grid
  simp [List.mem_flatMap, List.mem_map]

theorem sweep_map_config (X : Dataset)
    (fit : Dataset → ℕ → CovarianceFamily → Option FittedModel)
    (criterion : FittedModel → Dataset → ℚ)
    (g : List (ℕ × CovarianceFamily)) :
    (sweep X fit criterion g).map (fun row => (row.k, row.family)) = g := by
  unfold sweep
  rw [List.map_map]
  have hcomp : ((fun row => (row.k, row.family)) ∘ sweepRow X fit criterion) =
      id := by
    funext p
    show ((sweepRow X fit criterion p).k, (sweepRow X fit criterion p).family) =
      p
    rw [sweepRow_k, sweepRow_family]
  rw [hcomp, List.map_id]

theorem grid_nodup (kV : List ℕ) (fams : List CovarianceFamily)
    (h1 : kV.Nodup) (h2 : fams.Nodup) : (grid kV fams).Nodup := by
  unfold grid
  refine List.nodup_flatMap.2 ⟨fun k _ => h2.map ?_, h1.imp ?_⟩
  · intro f1 f2 hf
    injection hf
  · intro k1 k2 hne x hx1 hx2
    obtain ⟨f1, _, rfl⟩ := List.mem_map.1 hx1
    obtain ⟨f2, _, heq⟩ := List.mem_map.1 hx2
    exact hne (congrArg Prod.fst heq).symm

theorem pickBest_sweep_none_iff (d : ℕ) (X : Dataset)
    (fit : Dataset → ℕ → CovarianceFamily → Option FittedModel)
    (criterion : FittedModel → Dataset → ℚ)
    (g : List (ℕ × CovarianceFamily)) :
    pickBest d (sweep X fit criterion g) = none ↔
      ∀ p ∈ g, fit X p.1 p.2 = none := by
  rw [pickBest_eq_none_iff]
  constructor
  · intro h p hp
    have hm := h (sweepRow X fit criterion p)
      ((mem_sweep X fit criterion g _).mpr ⟨p, hp, rfl⟩)
    exact (sweepRow_outcome_eq_none X fit criterion p).mp hm
  · intro h row hrow
    obtain ⟨p, hp, rfl⟩ := (mem_sweep X fit criterion g row).mp hrow
    exact (sweepRow_outcome_eq_none X fit criterion p).mpr (h p hp)

theorem argmaxBy_cons {α : Type} (f : α → ℚ) (a : α) (l : List α) :
    argmaxBy f (a :: l) =
      match argmaxBy f l with
      | none => some a
      | some b => if f a < f b then some b else some a := rfl

theorem argminBy_cons {α : Type} (f : α → ℚ) (a : α) (l : List α) :
    argminBy f (a :: l) =
      match argminBy f l with
      | none => some a
      | some b => if f b < f a then some b else some a := rfl

theorem argmaxBy_neg_eq_argminBy {α : Type} (g : α → ℚ) (l : List α) :
    argmaxBy (fun a => -(g a)) l = argminBy g l := by
  induction l with
  | nil => rfl
  | cons a rest ih =>
    rw [argmaxBy_cons, argminBy_cons, ih]
    cases hb : argminBy g rest with
    | none => rfl
    | some b =>
      show (if -(g a) < -(g b) then some b else some a) =
        if g b < g a then some b else some a
      simp only [neg_lt_neg_iff]

/-! ## Claims -/

/-- Claim C1: minimality of selection — whenever `select` returns a
Selection Result, its best score is less than or equal to the score of
every successful configuration in the result table. -/
theorem select_minimality (X : Dataset) (kV : List ℕ)
    (fams : List CovarianceFamily)
    (fit : Dataset → ℕ → CovarianceFamily → Option FittedModel)
    (criterion : FittedModel → Dataset → ℚ) (r : SelectionResult)
    (h : select X kV fams fit criterion = .ok r) :
    ∀ row ∈ r.table, ∀ m s, row.outcome = some (m, s) → r.bestScore ≤ s := by
  obtain ⟨hv, htab, hpb⟩ := select_ok_elim X kV fams fit criterion r h
  intro row hrow m s hout
  exact (pickBest_min (dim X) r.table _ hpb row hrow m s hout).1

/-- Concrete instantiation of claim C1: on the stub grid the returned
score -4 is below the other successful score -2. -/
theorem select_minimality_witness : wResult.bestScore ≤ -2 :=
  select_minimality wX [1, 2] [.spherical] wFitAll wCrit wResult (by decide)
    ⟨1, .spherical, some (wModel (-2), -2)⟩ (by decide) (wModel (-2)) (-2)
    (by decide)

/-- Claim C2: tie-break — among rows whose score equals the best score the
selected configuration has a minimal parameter count, and the selected
configuration occupies a table position such that every strictly earlier
successful row is strictly beaten (strictly larger score, or equal score
and strictly more parameters). -/
theorem select_tiebreak (X : Dataset) (kV : List ℕ)
    (fams : List CovarianceFamily)
    (fit : Dataset → ℕ → CovarianceFamily → Option FittedModel)
    (criterion : FittedModel → Dataset → ℚ) (r : SelectionResult)
    (h : select X kV fams fit criterion = .ok r) :
    (∀ row ∈ r.table, ∀ m s, row.outcome = some (m, s) → s = r.bestScore →
        nParameters r.bestK (dim X) r.bestFamily ≤
          nParameters row.k (dim X) row.family) ∧
    (∃ i : ℕ, r.table[i]? =
        some ⟨r.bestK, r.bestFamily, some (r.bestModel, r.bestScore)⟩ ∧
      ∀ j, j < i → ∀ row : ResultRow, r.table[j]? = some row →
        ∀ m s, row.outcome = some (m, s) →
          r.bestScore < s ∨
            (r.bestScore = s ∧
              nParameters r.bestK (dim X) r.bestFamily <
                nParameters row.k (dim X) row.family)) := by
  obtain ⟨hv, htab, hpb⟩ := select_ok_elim X kV fams fit criterion r h
  constructor
  · intro row hrow m s hout hs
    exact (pickBest_min (dim X) r.table _ hpb row hrow m s hout).2 hs.symm
  · exact pickBest_earliest (dim X) r.table _ hpb

/-- Concrete instantiation of claim C2: with two configurations tied at
score -2, the selected spherical family has no more parameters than the
full family row (3 ≤ 5 in dimension 2). -/
theorem select_tiebreak_witness :
    nParameters wTieResult.bestK (dim wX) wTieResult.bestFamily ≤
      nParameters 1 (dim wX) CovarianceFamily.full :=
  (select_tiebreak wX [1] [.spherical, .full] wFitAll wCrit wTieResult
      (by decide)).1
    ⟨1, .full, some (wModel (-2), -2)⟩ (by decide) (wModel (-2)) (-2)
    (by decide) (by decide)

/-- Claim C3: per-point failure tolerance — when the fitter fails at a
grid point but succeeds at another, `select` surfaces no error at all (in
particular no fit failure reaches the caller), records the failed pair in
the table with the failure marker (undefined score), excludes it from the
minimum-score selection, and still visits every other grid point. -/
theorem select_failure_tolerance (X : Dataset) (kV : List ℕ)
    (fams : List CovarianceFamily)
    (fit : Dataset → ℕ → CovarianceFamily → Option FittedModel)
    (criterion : FittedModel → Dataset → ℚ)
    (k : ℕ) (f : CovarianceFamily) (k1 : ℕ) (f1 : CovarianceFamily)
    (hv : validGrid kV fams = true)
    (hmem : (k, f) ∈ grid kV fams)
    (hfail : fit X k f = none)
    (hmem1 : (k1, f1) ∈ grid kV fams)
    (hsucc : fit X k1 f1 ≠ none) :
    (∀ e : SelectError, select X kV fams fit criterion ≠ .error e) ∧
    ∀ r : SelectionResult, select X kV fams fit criterion = .ok r →
      (⟨k, f, none⟩ : ResultRow) ∈ r.table ∧
      (r.bestK, r.bestFamily) ≠ (k, f) ∧
      ∀ k2 f2, (k2, f2) ∈ grid kV fams →
        ∃ row ∈ r.table, row.k = k2 ∧ row.family = f2 := by
  have hnot : ¬ pickBest (dim X) (sweep X fit criterion (grid kV fams)) =
      none := by
    intro hp
    exact hsucc ((pickBest_sweep_none_iff (dim X) X fit criterion _).mp hp
      (k1, f1) hmem1)
  constructor
  · intro e he
    cases hp : pickBest (dim X) (sweep X fit criterion (grid kV fams)) with
    | none => exact hnot hp
    | some b =>
      rw [select_ok_intro X kV fams fit criterion b hv hp] at he
      exact Except.noConfusion he
  · intro r h
    obtain ⟨hv2, htab, hpb⟩ := select_ok_elim X kV fams fit criterion r h
    refine ⟨?_, ?_, ?_⟩
    · rw [htab]
      refine (mem_sweep X fit criterion _ _).mpr ⟨(k, f), hmem, ?_⟩
      exact sweepRow_of_fail X fit criterion (k, f) hfail
    · intro hc
      have hbk : r.bestK = k := congrArg Prod.fst hc
      have hbf : r.bestFamily = f := congrArg Prod.snd hc
      have hbm := pickBest_mem (dim X) r.table _ hpb
      rw [htab] at hbm
      obtain ⟨p, hp, hrow⟩ := (mem_sweep X fit criterion _ _).mp hbm
      have hout : (sweepRow X fit criterion p).outcome =
          some (r.bestModel, r.bestScore) := by rw [hrow]
      have hfit := (sweepRow_outcome_some X fit criterion p _ _ hout).1
      have hpk : p.1 = r.bestK := by
        rw [← sweepRow_k X fit criterion p, hrow]
      have hpf : p.2 = r.bestFamily := by
        rw [← sweepRow_family X fit criterion p, hrow]
      rw [hpk, hpf, hbk, hbf, hfail] at hfit
      exact Option.noConfusion hfit
    · intro k2 f2 hkf2
      refine ⟨sweepRow X fit criterion (k2, f2), ?_, ?_, ?_⟩
      · rw [htab]
        exact (mem_sweep X fit criterion _ _).mpr ⟨(k2, f2), hkf2, rfl⟩
      · exact sweepRow_k X fit criterion (k2, f2)
      · exact sweepRow_family X fit criterion (k2, f2)

/-- Concrete instantiation of claim C3: the k = 1 fit fails, yet `select`
does not raise `NoViableModel`, and the failure-marker row is in the
returned table. -/
theorem select_failure_tolerance_witness :
    (select wX [1, 2] [CovarianceFamily.full] wFitPartial wCrit ≠
      .error SelectError.NoViableModel) ∧
    (⟨1, CovarianceFamily.full, none⟩ : ResultRow) ∈ wPartialResult.table :=
  ⟨(select_failure_tolerance wX [1, 2] [.full] wFitPartial wCrit
      1 .full 2 .full (by decide) (by decide) (by decide) (by decide)
      (by decide)).1 .NoViableModel,
   ((select_failure_tolerance wX [1, 2] [.full] wFitPartial wCrit
      1 .full 2 .full (by decide) (by decide) (by decide) (by decide)
      (by decide)).2 wPartialResult (by decide)).1⟩

/-- Claim C4: on a valid grid, `select` returns `NoViableModel` exactly
when every grid point's fit fails; as soon as one grid point succeeds it
returns a Selection Result. -/
theorem select_noviable_characterization (X : Dataset) (kV : List ℕ)
    (fams : List CovarianceFamily)
    (fit : Dataset → ℕ → CovarianceFamily → Option FittedModel)
    (criterion : FittedModel → Dataset → ℚ)
    (hv : validGrid kV fams = true) :
    (select X kV fams fit criterion = .error .NoViableModel ↔
      ∀ k f, (k, f) ∈ grid kV fams → fit X k f = none) ∧
    ((∃ k f, (k, f) ∈ grid kV fams ∧ fit X k f ≠ none) →
      ∃ r : SelectionResult, select X kV fams fit criterion = .ok r) := by
  have hiff : pickBest (dim X) (sweep X fit criterion (grid kV fams)) =
      none ↔ ∀ k f, (k, f) ∈ grid kV fams → fit X k f = none := by
    rw [pickBest_sweep_none_iff]
    constructor
    · intro h k f hkf
      exact h (k, f) hkf
    · intro h p hp
      exact h p.1 p.2 hp
  constructor
  · constructor
    · intro he
      refine hiff.mp ?_
      cases hp : pickBest (dim X) (sweep X fit criterion (grid kV fams)) with
      | none => rfl
      | some b =>
        rw [select_ok_intro X kV fams fit criterion b hv hp] at he
        exact Except.noConfusion he
    · intro hall
      exact select_noviable_intro X kV fams fit criterion hv (hiff.mpr hall)
  · rintro ⟨k, f, hkf, hsucc⟩
    cases hp : pickBest (dim X) (sweep X fit criterion (grid kV fams)) with
    | none => exact absurd (hiff.mp hp k f hkf) hsucc
    | some b => exact ⟨_, select_ok_intro X kV fams fit criterion b hv hp⟩

/-- Concrete instantiation of claim C4: with the always-failing fitter the
selection fails with `NoViableModel`. -/
theorem select_noviable_characterization_witness :
    select wX [1] [CovarianceFamily.full] wFitFail wCrit =
      .error SelectError.NoViableModel :=
  (select_noviable_characterization wX [1] [.full] wFitFail wCrit
      (by decide)).1.mpr (fun k f hkf => rfl)

/-- Claim C5: fail-fast input validation — an empty `k_values` list, an
empty `families` list, or a zero (non-positive) k makes `select` fail with
`InvalidConfiguration` for every dataset, fitter and criterion, so no
fitting is attempted and the outcome never depends on the fitter. -/
theorem select_invalid_fail_fast (kV : List ℕ) (fams : List CovarianceFamily)
    (h : kV = [] ∨ fams = [] ∨ 0 ∈ kV) :
    ∀ (X : Dataset)
      (fit : Dataset → ℕ → CovarianceFamily → Option FittedModel)
      (criterion : FittedModel → Dataset → ℚ),
      select X kV fams fit criterion = .error .InvalidConfiguration := by
  intro X fit criterion
  apply select_invalid
  rcases h with h | h | h
  · subst h
    simp [validGrid]
  · subst h
    simp [validGrid]
  · unfold validGrid
    have hall : (kV.all fun k => decide (0 < k)) = false := by
      rw [List.all_eq_false]
      exact ⟨0, h, by simp⟩
    rw [hall]
    simp

/-- Concrete instantiation of claim C5: an empty `k_values` list is
rejected with `InvalidConfiguration`. -/
theorem select_invalid_fail_fast_witness :
    select wX [] [CovarianceFamily.full] wFitAll wCrit =
      .error SelectError.InvalidConfiguration :=
  select_invalid_fail_fast [] [CovarianceFamily.full] (Or.inl rfl)
    wX wFitAll wCrit

/-- Claim C6: determinism — two runs of `select` on the same dataset, grid
and criterion with pointwise-equal deterministic fitters produce the
identical Selection Result (same best configuration, same best model
parameters, same result table). -/
theorem select_deterministic (X : Dataset) (kV : List ℕ)
    (fams : List CovarianceFamily)
    (fit1 fit2 : Dataset → ℕ → CovarianceFamily → Option FittedModel)
    (criterion : FittedModel → Dataset → ℚ)
    (h : ∀ Y k f, fit1 Y k f = fit2 Y k f) :
    select X kV fams fit1 criterion = select X kV fams fit2 criterion := by
  have hfe : fit1 = fit2 :=
    funext fun Y => funext fun k => funext fun f => h Y k f
  rw [hfe]

/-- Concrete instantiation of claim C6 at the stub fitter. -/
theorem select_deterministic_witness :
    select wX [1, 2] [CovarianceFamily.spherical] wFitAll wCrit =
      select wX [1, 2] [CovarianceFamily.spherical] wFitAll wCrit :=
  select_deterministic wX [1, 2] [CovarianceFamily.spherical]
    wFitAll wFitAll wCrit (fun _ _ _ => rfl)

/-- Claim C7: BIC definition — the Criterion Evaluator's BIC score is
`-2 * log_likelihood + p * log(n)` where `n` is the number of data points
and `p` is the free-parameter count determined by (k, family,
dimensionality): covariance parameters per family plus `k*d` means plus
`k - 1` weights. -/
theorem bic_definition :
    (∀ (e : Estimator) (X : Dataset) (log : ℕ → ℚ),
        e.bic X log =
          -2 * e.logLik +
            (nParameters e.k (dim X) e.family : ℚ) * log X.length) ∧
    (∀ k d : ℕ,
        nParameters k d .full = k * (d * (d + 1) / 2) + k * d + (k - 1) ∧
        nParameters k d .tied = d * (d + 1) / 2 + k * d + (k - 1) ∧
        nParameters k d .diag = k * d + k * d + (k - 1) ∧
        nParameters k d .spherical = k + k * d + (k - 1)) :=
  ⟨fun e X log => rfl, fun k d => ⟨rfl, rfl, rfl, rfl⟩⟩

/-- Claim C8: complete deterministic enumeration — the grid is exactly the
Cartesian product of `k_values` and `families`, with no duplicates when
the inputs have none; the result table of `select` visits it pairwise in
order, each pair exactly once; and on the notebook's `param_grid` the
enumeration is the explicit 24-point list with k ascending and the
families in declared order. -/
theorem grid_enumeration (kV : List ℕ) (fams : List CovarianceFamily) :
    (∀ (k : ℕ) (f : CovarianceFamily),
        (k, f) ∈ grid kV fams ↔ k ∈ kV ∧ f ∈ fams) ∧
    (kV.Nodup → fams.Nodup → (grid kV fams).Nodup) ∧
    (∀ (X : Dataset)
        (fit : Dataset → ℕ → CovarianceFamily → Option FittedModel)
        (criterion : FittedModel → Dataset → ℚ) (r : SelectionResult),
        select X kV fams fit criterion = .ok r →
        r.table.map (fun row => (row.k, row.family)) = grid kV fams) ∧
    grid kValuesSrc declaredFamilies =
      [(1, .spherical), (1, .tied), (1, .diag), (1, .full),
       (2, .spherical), (2, .tied), (2, .diag), (2, .full),
       (3, .spherical), (3, .tied), (3, .diag), (3, .full),
       (4, .spherical), (4, .tied), (4, .diag), (4, .full),
       (5, .spherical), (5, .tied), (5, .diag), (5, .full),
       (6, .spherical), (6, .tied), (6, .diag), (6, .full)] := by
  refine ⟨mem_grid kV fams, grid_nodup kV fams, ?_, by decide⟩
  intro X fit criterion r h
  obtain ⟨hv, htab, hpb⟩ := select_ok_elim X kV fams fit criterion r h
  rw [htab]
  exact sweep_map_config X fit criterion (grid kV fams)

/-- Concrete instantiation of claim C8: the stub grid is duplicate-free
and the returned table's configurations are exactly the grid, in order. -/
theorem grid_enumeration_witness :
    (grid [1, 2] [CovarianceFamily.spherical]).Nodup ∧
    wResult.table.map (fun row => (row.k, row.family)) =
      grid [1, 2] [CovarianceFamily.spherical] :=
  ⟨(grid_enumeration [1, 2] [CovarianceFamily.spherical]).2.1
      (by decide) (by decide),
   (grid_enumeration [1, 2] [CovarianceFamily.spherical]).2.2.1
      wX wFitAll wCrit wResult (by decide)⟩

/-- Claim C9: maximize-negative equals minimize — the notebook's
`gmm_bic_score` is exactly the negated BIC, and the first-occurrence
argmax of `gmm_bic_score` over any candidate list coincides with the
first-occurrence argmin of the BIC itself, so the maximize-the-negative
implementation refines the direct-minimization contract. -/
theorem neg_bic_argmax_refines_argmin (X : Dataset) (log : ℕ → ℚ) :
    (∀ e : Estimator, gmm_bic_score e X log = -(e.bic X log)) ∧
    ∀ es : List Estimator,
      argmaxBy (fun e => gmm_bic_score e X log) es =
        argminBy (fun e => e.bic X log) es :=
  ⟨fun e => rfl,
   fun es => argmaxBy_neg_eq_argminBy (fun e => e.bic X log) es⟩

/-- Claim C10: round-trip of the sign flip — the "BIC score" column of the
reporting dataframe negates the stored `mean_test_score`, which was itself
the negated BIC, so each reported row carries the estimator's actual BIC
value. -/
theorem df_bic_roundtrip (es : List Estimator) (X : Dataset) (log : ℕ → ℚ) :
    df_bic es X log = es.map fun e => (e.k, e.family, e.bic X log) := by
  unfold df_bic cv_results
  rw [List.map_map]
  have hcomp : ((fun row : ℕ × CovarianceFamily × ℚ =>
        (row.1, row.2.1, -row.2.2)) ∘
      fun e : Estimator => (e.k, e.family, gmm_bic_score e X log)) =
      fun e : Estimator => (e.k, e.family, e.bic X log) := by
    funext e
    show (e.k, e.family, -(gmm_bic_score e X log)) =
      (e.k, e.family, e.bic X log)
    unfold gmm_bic_score
    rw [neg_neg]
  rw [hcomp]

end GMMSelect
